import Mathlib

/-!
Verification of the `task` CLI front end.

The development shallowly embeds the two source files of the repository:

* `cmd/taskmain/task.go` — flag validation and mode dispatch (`Task`),
  positional-argument splitting and pass-through re-quoting (`getArgs`),
  call building and the `CLI_ARGS` binding, and the run exit-code policy;
* `internal/templater/funcs.go` — the template function registry.

Pure Go functions become Lean functions.  Components that the source
delegates to packages outside this repository (the `syntax.Quote` quoter,
the `args.ParseV2`/`args.ParseV3` call grammars, the `taskfile.Vars`
ordered map, the generic sprig base function map, and `filepath`
helpers) are modelled from the specification; each such definition says
so in its doc comment.
-/

namespace TaskCLI

/-! ## Quoter and POSIX shell word-splitting model -/

/-- Modelled from the spec: the source quotes each pass-through token with
`syntax.Quote(arg, syntax.LangBash)` from `mvdan.cc/sh`, which is not part
of this repository's sources.  The spec (§2 Quoter, §4.2) requires
reversible shell-safe quoting.  We model the canonical POSIX scheme: the
value is wrapped in single quotes and each embedded single quote becomes
the four-character sequence close-quote, backslash, quote, reopen-quote.
`quoteChar` gives the expansion of one character. -/
def quoteChar (c : Char) : List Char :=
  if c = '\'' then ['\'', '\\', '\'', '\''] else [c]

/-- Concatenated expansion of a whole token body. -/
def quoteChars : List Char → List Char
  | [] => []
  | c :: cs => quoteChar c ++ quoteChars cs

/-- The quoted form of a token: single quotes around the expanded body. -/
def quoteStr (s : String) : String :=
  ⟨'\'' :: (quoteChars s.data ++ ['\''])⟩

/-- The NUL character, the one input byte a shell word cannot carry. -/
def nulChar : Char := Char.ofNat 0

/-- Modelled from the spec (§4.2): quoting fails only on unencodable input
(an embedded NUL), surfacing as `ArgumentEncodingError`; on all other
input it returns the single-quoted form. -/
def quote (s : String) : Option String :=
  if s.data.contains nulChar then none else some (quoteStr s)

/-- Parsing mode of the shell word splitter: outside quotes, inside
single quotes, inside double quotes. -/
inductive SMode
  | norm
  | squote
  | dquote
deriving DecidableEq

/-- Blank characters on which an unquoted word ends (IFS defaults). -/
def isBlank (c : Char) : Bool := c == ' ' || c == '\t' || c == '\n'

/-- Characters that would start an expansion in an unquoted or
double-quoted context (`$` and the backquote). -/
def isExpandChar (c : Char) : Bool := c == '$' || c == Char.ofNat 96

/-- Modelled from the spec (§4.2, §8): word splitting of a command line by
a POSIX-compliant shell, used to state the quote/parse round trip.  The
accumulator `acc` holds the characters of the word being built and
`started` records whether a word is in progress (so that an empty quoted
string still yields a word).  Inputs whose literal value a plain
word-splitting pass cannot determine (an unquoted expansion character, an
unterminated quote, a trailing backslash) yield `none`. -/
def shellSplit : List Char → SMode → List Char → Bool → Option (List String)
  | [], .norm, acc, started => some (if started then [⟨acc⟩] else [])
  | [], .squote, _, _ => none
  | [], .dquote, _, _ => none
  | c :: cs, .norm, acc, started =>
    if isBlank c then
      if started then (shellSplit cs .norm [] false).map (fun ws => String.mk acc :: ws)
      else shellSplit cs .norm [] false
    else if c = '\'' then shellSplit cs .squote acc true
    else if c = '"' then shellSplit cs .dquote acc true
    else if c = '\\' then
      match cs with
      | [] => none
      | d :: ds => shellSplit ds .norm (acc ++ [d]) true
    else if isExpandChar c then none
    else shellSplit cs .norm (acc ++ [c]) true
  | c :: cs, .squote, acc, started =>
    if c = '\'' then shellSplit cs .norm acc started
    else shellSplit cs .squote (acc ++ [c]) started
  | c :: cs, .dquote, acc, started =>
    if c = '"' then shellSplit cs .norm acc started
    else if c = '\\' then
      match cs with
      | [] => none
      | d :: ds =>
        if d = '"' || d = '\\' || d = '$' || d = Char.ofNat 96 then
          shellSplit ds .dquote (acc ++ [d]) started
        else shellSplit ds .dquote (acc ++ ['\\', d]) started
    else if isExpandChar c then none
    else shellSplit cs .dquote (acc ++ [c]) started

/-- Word-split a whole command line starting outside any word. -/
def shellFields (s : String) : Option (List String) :=
  shellSplit s.data .norm [] false

/-! ## The Argument Splitter (`getArgs` in `cmd/taskmain/task.go`) -/

/-- `strings.Join(xs, " ")` from the Go standard library. -/
def joinSpace : List String → String
  | [] => ""
  | [x] => x
  | x :: xs => x ++ " " ++ joinSpace xs

/-- The quoting loop of `getArgs`: quote every pass-through token,
propagating the first quoting error. -/
def quoteAll : List String → Option (List String)
  | [] => some []
  | a :: rest =>
    match quote a with
    | none => none
    | some q => (quoteAll rest).map (fun qs => q :: qs)

/-- Embedding of `getArgs` from `cmd/taskmain/task.go`.  `args` is the
positional argument list and `doubleDashPos` the zero-based index at
which arguments after the `--` separator begin (`none` models the `-1`
sentinel of `ArgsLenAtDash`).  With no separator the full list and an
empty pass-through string are returned; otherwise the arguments before
the separator are returned unchanged and the ones at or after it are
each quoted and joined with single spaces. -/
def getArgs (args : List String) (doubleDashPos : Option Nat) :
    Option (List String × String) :=
  match doubleDashPos with
  | none => some (args, "")
  | some pos =>
    match quoteAll (args.drop pos) with
    | none => none
    | some quoted => some (args.take pos, joinSpace quoted)

/-! ## Variable sets and the Call Builder -/

/-- A variable value: a static string or a dynamic shell expression
(spec §3 VariableSet).  Modelled from the spec: the `taskfile.Var` type
lives outside this repository's sources. -/
inductive VarValue
  | static (s : String)
  | sh (cmd : String)
deriving DecidableEq

/-- Modelled from the spec (§3): a `VariableSet` is an insertion-ordered
mapping from variable name to value, embedded as an association list. -/
abbrev Vars := List (String × VarValue)

/-- Setting a key overwrites an existing binding in place and otherwise
appends a new binding (insertion order preserved). -/
def setVar : Vars → String → VarValue → Vars
  | [], k, v => [(k, v)]
  | (k0, v0) :: rest, k, v =>
    if k0 = k then (k, v) :: rest else (k0, v0) :: setVar rest k v

/-- Lookup of the binding of a key. -/
def getVar : Vars → String → Option VarValue
  | [], _ => none
  | (k0, v0) :: rest, k => if k0 = k then some v0 else getVar rest k

/-- Splits a token at its first `=` into the characters before and after. -/
def splitAtEq : List Char → List Char × List Char
  | [] => ([], [])
  | c :: cs =>
    if c = '=' then ([], cs)
    else
      let p := splitAtEq cs
      (c :: p.1, p.2)

/-- Splits a `KEY=VALUE` token into key and value at the first `=`. -/
def splitAssign (s : String) : String × String :=
  let p := splitAtEq s.data
  (⟨p.1⟩, ⟨p.2⟩)

/-- A token is a variable assignment exactly when it contains `=`
(spec §4.3). -/
def isAssign (s : String) : Bool := s.data.contains '='

/-- One requested task invocation: task name plus private variable
overrides (spec §3 Call). -/
structure Call where
  task : String
  vars : Vars
deriving DecidableEq

/-- Modelled from the spec (§4.3 v3 grammar): `args.ParseV3` is not part
of this repository's sources.  Tokens are scanned left to right; a token
containing `=` is an assignment, any other token a task name.  Following
the spec's wording, a task name locks in the assignments accumulated
since the previous task name as its private overrides, and trailing
assignments with no following task apply as globals.  (The spec's §9
notes the exact placement rule is an open question; no claim depends on
it.) -/
def parseV3Aux : List String → Vars → List Call × Vars
  | [], pending => ([], pending)
  | tok :: rest, pending =>
    if isAssign tok then
      let p := splitAssign tok
      parseV3Aux rest (setVar pending p.1 (.static p.2))
    else
      let r := parseV3Aux rest []
      (⟨tok, pending⟩ :: r.1, r.2)

/-- The v3 call grammar (spec §4.3). -/
def parseV3 (tokens : List String) : List Call × Vars := parseV3Aux tokens []

/-- Modelled from the spec (§4.3 v2 grammar): `args.ParseV2` is not part
of this repository's sources.  Only the first positional token is a task
name; every subsequent token is read as a `KEY=VALUE` assignment applied
to the global set. -/
def parseV2 : List String → List Call × Vars
  | [] => ([], [])
  | t :: rest =>
    ([⟨t, []⟩],
     rest.foldl (fun g tok => setVar g (splitAssign tok).1 (.static (splitAssign tok).2)) [])

/-- Embedding of the call-building block of `Task` (task.go lines
206-213): the declared schema version selects the grammar (`v >= 3.0`
picks v3, anything lower picks v2), and afterwards `CLI_ARGS` is set
unconditionally in the global set to the re-quoted pass-through string.
The Go `float64` version is embedded as a rational. -/
def buildCallsAndGlobals (v : ℚ) (tasksAndVars : List String) (cliArgs : String) :
    List Call × Vars :=
  let r := if v ≥ 3 then parseV3 tasksAndVars else parseV2 tasksAndVars
  (r.1, setVar r.2 "CLI_ARGS" (.static cliArgs))

/-! ## Flag validation and mode dispatch (`Task` in `cmd/taskmain/task.go`) -/

/-- The parsed flag record of `Task` (one field per `pflags` variable,
with the pflag default values).  `initFlag` models the `--init` flag. -/
structure Flags where
  versionFlag : Bool := false
  helpFlag : Bool := false
  initFlag : Bool := false
  list : Bool := false
  listAll : Bool := false
  statusFlag : Bool := false
  force : Bool := false
  watch : Bool := false
  verbose : Bool := false
  silent : Bool := false
  dry : Bool := false
  summary : Bool := false
  exitCode : Bool := false
  parallel : Bool := false
  concurrency : Nat := 0
  dir : String := ""
  entrypoint : String := ""
  outputName : String := ""
  outputGroupBegin : String := ""
  outputGroupEnd : String := ""
  color : Bool := true
  interval : String := "5s"
deriving DecidableEq

/-- The output configuration handed to the executor (`taskfile.Output`). -/
structure Output where
  name : String
  groupBegin : String
  groupEnd : String
deriving DecidableEq

/-- The executor configuration built by `Task` (the pure fields of
`task.Executor`). -/
structure Executor where
  force : Bool
  watch : Bool
  verbose : Bool
  silent : Bool
  dry : Bool
  summary : Bool
  parallel : Bool
  color : Bool
  dir : String
  entrypoint : String
  interval : String
  concurrency : Nat
  outputStyle : Output
deriving DecidableEq

/-- Error taxonomy of the CLI boundary (spec §7); only the classes the
claims mention are embedded. -/
inductive CliError
  | invalidFlagCombination
deriving DecidableEq

/-- The outcome of the flag-validation and early-dispatch prefix of
`Task`, up to the point where the Taskfile is loaded.  `scaffold` is the
`--init` path (it writes a new Taskfile: file I/O); `fatal` is a
`log.Fatal` call (one diagnostic line, process exit 1) reached with no
file I/O; `listNamesSilent` is the silent-list path; `proceed` continues
into `e.Setup()` (which loads the Taskfile: file I/O). -/
inductive EarlyOutcome
  | printVersion
  | printHelp
  | scaffold
  | fatal (e : CliError)
  | listNamesSilent (e : Executor)
  | proceed (e : Executor)
deriving DecidableEq

/-- The executor record literal of task.go lines 145-163. -/
def mkExecutor (f : Flags) (dir entry : String) : Executor :=
  { force := f.force, watch := f.watch, verbose := f.verbose,
    silent := f.silent, dry := f.dry, summary := f.summary,
    parallel := f.parallel, color := f.color, dir := dir,
    entrypoint := entry, interval := f.interval,
    concurrency := f.concurrency,
    outputStyle := ⟨f.outputName, f.outputGroupBegin, f.outputGroupEnd⟩ }

/-- Embedding of the statement sequence of `Task` from the `--version`
check down to `e.Setup()` (task.go lines 104-170), in source order.
`fpDir` and `fpBase` abstract `filepath.Dir` and `filepath.Base`, which
live outside this repository's sources; every claim holds for all
choices of them. -/
def preDispatch (fpDir fpBase : String → String) (f : Flags) : EarlyOutcome :=
  if f.versionFlag then .printVersion
  else if f.helpFlag then .printHelp
  else if f.initFlag then .scaffold
  else if f.dir ≠ "" ∧ f.entrypoint ≠ "" then .fatal .invalidFlagCombination
  else
    let dir := if f.entrypoint ≠ "" then fpDir f.entrypoint else f.dir
    let entry := if f.entrypoint ≠ "" then fpBase f.entrypoint else f.entrypoint
    if f.outputName ≠ "group" ∧ f.outputGroupBegin ≠ "" then .fatal .invalidFlagCombination
    else if f.outputName ≠ "group" ∧ f.outputGroupEnd ≠ "" then .fatal .invalidFlagCombination
    else
      let e := mkExecutor f dir entry
      if (f.list || f.listAll) && f.silent then .listNamesSilent e
      else .proceed e

/-- Whether an early outcome performs file I/O: scaffolding writes a new
Taskfile and proceeding loads one; printing, a fatal diagnostic, and the
silent name listing touch no files. -/
def touchesFilesystem : EarlyOutcome → Bool
  | .scaffold => true
  | .proceed _ => true
  | _ => false

/-! ## The run exit-code policy (task.go lines 228-238) -/

/-- The error returned by `e.Run`: a `*task.TaskRunError` carrying the
failed command's exit code, or any other error. -/
inductive RunErr
  | taskRun (code : Nat)
  | other
deriving DecidableEq

/-- What the process does after `e.Run` returns: the diagnostic lines the
handler writes to the error stream, and the process exit code. -/
structure ProcExit where
  stderrLines : List String
  code : Nat
deriving DecidableEq

/-- Embedding of the `e.Run` error handler (task.go lines 228-238).  On
success the function returns and the process exits 0.  On failure the
source evaluates `fmt.Errorf("%v", err)` and discards the result (the
printing `e.Logger.Errf` call is commented out), so no diagnostic line
is written; then, when `--exit-code` was set and the error is a
`TaskRunError`, the process exits with the carried code, and in every
other case it exits 1. -/
def runHandler (exitCodeFlag : Bool) (res : Option RunErr) : ProcExit :=
  match res with
  | none => ⟨[], 0⟩
  | some e =>
    match e, exitCodeFlag with
    | .taskRun c, true => ⟨[], c⟩
    | _, _ => ⟨[], 1⟩

/-! ## The Template Function Registry (`internal/templater/funcs.go`) -/

/-- A Go build target, fixing `runtime.GOOS` and `runtime.GOARCH`. -/
structure GoTarget where
  goos : String
  goarch : String
deriving DecidableEq

/-- The `OS` evaluator: returns `runtime.GOOS` of the build target. -/
def osFunc (t : GoTarget) : String := t.goos

/-- The `ARCH` evaluator: returns `runtime.GOARCH` of the build target. -/
def archFunc (t : GoTarget) : String := t.goarch

/-- The `catLines` evaluator from funcs.go. -/
def catLines (s : String) : String :=
  (s.replace "\r\n" " ").replace "\n" " "

/-- The `exeExt` evaluator from funcs.go: `".exe"` on the windows target
and the empty string otherwise. -/
def exeExt (t : GoTarget) : String :=
  if t.goos = "windows" then ".exe" else ""

/-- The `fromSlash` evaluator.  Modelled from the Go standard library
`filepath.FromSlash` (outside this repository's sources): on windows
each slash becomes a backslash, elsewhere the path is unchanged. -/
def fromSlash (t : GoTarget) (p : String) : String :=
  if t.goos = "windows" then p.replace "/" "\\" else p

/-- The `toSlash` evaluator.  Modelled from the Go standard library
`filepath.ToSlash`: on windows each backslash becomes a slash, elsewhere
the path is unchanged. -/
def toSlash (t : GoTarget) (p : String) : String :=
  if t.goos = "windows" then p.replace "\\" "/" else p

/-- The domain-specific template functions, one tag per entry of the
`taskFuncs` map in funcs.go.  In Go the deprecated aliases hold the very
same function values as the renamed entries, so they share a tag here. -/
inductive TemplFunc
  | osF
  | archF
  | catLinesF
  | splitLinesF
  | fromSlashF
  | toSlashF
  | exeExtF
  | shellQuoteF
  | splitArgsF
  | isSHF
  | joinPathF
  | relPathF
deriving DecidableEq

/-- The `taskFuncs` map of funcs.go: the named domain-specific entries
followed by the three deprecated aliases added at the end of `init`. -/
def taskFuncs : List (String × TemplFunc) :=
  [("OS", .osF), ("ARCH", .archF), ("catLines", .catLinesF),
   ("splitLines", .splitLinesF), ("fromSlash", .fromSlashF),
   ("toSlash", .toSlashF), ("exeExt", .exeExtF),
   ("shellQuote", .shellQuoteF), ("splitArgs", .splitArgsF),
   ("IsSH", .isSHF), ("joinPath", .joinPathF), ("relPath", .relPathF),
   ("FromSlash", .fromSlashF), ("ToSlash", .toSlashF), ("ExeExt", .exeExtF)]

/-- Association-list lookup used for the function maps. -/
def lookupFunc : List (String × TemplFunc) → String → Option TemplFunc
  | [], _ => none
  | (k0, f) :: rest, k => if k0 = k then some f else lookupFunc rest k

/-- Embedding of the `init` merge of funcs.go: the registry starts from
the generic sprig base map (outside this repository's sources, abstracted
as any map `base` into any entry type) and then every `taskFuncs` entry
is written over it, so a name defined in both resolves to the
domain-specific entry and any other name falls through to the base. -/
def buildRegistry {β : Type} (base : String → Option β) (k : String) :
    Option (β ⊕ TemplFunc) :=
  match lookupFunc taskFuncs k with
  | some f => some (Sum.inr f)
  | none => (base k).map Sum.inl

/-- Denotation of the string-valued template functions of zero or one
string argument, used to compare registry entries behaviorally; the
list-valued and fallible entries are not needed by any claim and denote
`none`. -/
def denoteStr : TemplFunc → GoTarget → String → Option String
  | .osF, t, _ => some (osFunc t)
  | .archF, t, _ => some (archFunc t)
  | .catLinesF, _, s => some (catLines s)
  | .fromSlashF, t, p => some (fromSlash t p)
  | .toSlashF, t, p => some (toSlash t p)
  | .exeExtF, t, _ => some (exeExt t)
  | _, _, _ => none

/-! ## Helper lemmas about the shell model -/

theorem data_append (s t : String) : (s ++ t).data = s.data ++ t.data := by
  cases s; cases t; rfl

theorem mk_data (s : String) : String.mk s.data = s := by
  cases s; rfl

theorem shellSplit_nil_norm (acc : List Char) (st : Bool) :
    shellSplit [] .norm acc st = some (if st then [String.mk acc] else []) := by
  rw [shellSplit.eq_def]

theorem shellSplit_squote_exit (cs acc : List Char) (st : Bool) :
    shellSplit ('\'' :: cs) .squote acc st = shellSplit cs .norm acc st := by
  rw [shellSplit.eq_def]; rfl

theorem shellSplit_squote_lit (c : Char) (h : ¬ c = '\'') (cs acc : List Char) (st : Bool) :
    shellSplit (c :: cs) .squote acc st = shellSplit cs .squote (acc ++ [c]) st := by
  rw [shellSplit.eq_def]
  simp [h]

theorem shellSplit_norm_quote (cs acc : List Char) (st : Bool) :
    shellSplit ('\'' :: cs) .norm acc st = shellSplit cs .squote acc true := by
  rw [shellSplit.eq_def]; rfl

theorem shellSplit_norm_backslash (d : Char) (cs acc : List Char) (st : Bool) :
    shellSplit ('\\' :: d :: cs) .norm acc st = shellSplit cs .norm (acc ++ [d]) true := by
  rw [shellSplit.eq_def]; rfl

theorem shellSplit_norm_space (cs acc : List Char) :
    shellSplit (' ' :: cs) .norm acc true
      = (shellSplit cs .norm [] false).map (fun ws => String.mk acc :: ws) := by
  rw [shellSplit.eq_def]; rfl

/-- Inside single quotes the expansion of a token body is consumed
verbatim into the accumulator. -/
theorem shellSplit_squote_consume : ∀ (l rest acc : List Char),
    shellSplit (quoteChars l ++ rest) .squote acc true
      = shellSplit rest .squote (acc ++ l) true := by
  intro l
  induction l with
  | nil => intro rest acc; simp [quoteChars]
  | cons c l ih =>
    intro rest acc
    by_cases hc : c = '\''
    · subst hc
      show shellSplit ((quoteChar '\'' ++ quoteChars l) ++ rest) .squote acc true = _
      have hq : quoteChar '\'' = ['\'', '\\', '\'', '\''] := by rfl
      rw [hq, List.append_assoc]
      rw [show ('\'' :: '\\' :: '\'' :: '\'' :: []) ++ (quoteChars l ++ rest)
            = '\'' :: '\\' :: '\'' :: '\'' :: (quoteChars l ++ rest) from rfl]
      rw [shellSplit_squote_exit, shellSplit_norm_backslash, shellSplit_norm_quote]
      rw [ih]
      simp
    · show shellSplit ((quoteChar c ++ quoteChars l) ++ rest) .squote acc true = _
      have hq : quoteChar c = [c] := by simp [quoteChar, hc]
      rw [hq, List.append_assoc, List.singleton_append]
      rw [shellSplit_squote_lit c hc, ih]
      simp

/-- A whole quoted token is consumed from normal mode: the token body is
appended to the accumulator and parsing resumes in normal mode with a
word in progress. -/
theorem shellSplit_quoted_token (t : String) (rest acc : List Char) (st : Bool) :
    shellSplit ((quoteStr t).data ++ rest) .norm acc st
      = shellSplit rest .norm (acc ++ t.data) true := by
  show shellSplit (('\'' :: (quoteChars t.data ++ ['\''])) ++ rest) .norm acc st = _
  rw [List.cons_append, List.append_assoc, List.singleton_append]
  rw [shellSplit_norm_quote, shellSplit_squote_consume, shellSplit_squote_exit]

/-- Round trip: word splitting the space-joined quoted forms of any
token list recovers exactly the original tokens. -/
theorem shellSplit_join_quoted : ∀ (l : List String),
    shellSplit (joinSpace (l.map quoteStr)).data .norm [] false = some l := by
  intro l
  induction l with
  | nil => rfl
  | cons t ts ih =>
    cases ts with
    | nil =>
      show shellSplit (quoteStr t).data .norm [] false = some [t]
      have h := shellSplit_quoted_token t [] [] false
      rw [List.append_nil] at h
      rw [h, shellSplit_nil_norm, List.nil_append, if_pos rfl, mk_data]
    | cons t2 ts2 =>
      show shellSplit ((quoteStr t ++ " " ++ joinSpace ((t2 :: ts2).map quoteStr))).data
            .norm [] false = some (t :: t2 :: ts2)
      rw [data_append, data_append]
      rw [show (" " : String).data = [' '] from rfl]
      rw [List.append_assoc, List.singleton_append]
      rw [shellSplit_quoted_token, List.nil_append, shellSplit_norm_space, ih]
      rw [mk_data]
      rfl

/-! ## Helper lemmas about quoting and the splitter -/

theorem quote_of_noNul (s : String) (h : s.data.contains nulChar = false) :
    quote s = some (quoteStr s) := by
  unfold quote
  rw [h]
  simp

theorem quote_some (s q : String) (h : quote s = some q) : q = quoteStr s := by
  unfold quote at h
  split at h
  · exact absurd h (by simp)
  · exact (Option.some.injEq _ _ ▸ h).symm

theorem quoteAll_of_noNul : ∀ (l : List String),
    (∀ t ∈ l, t.data.contains nulChar = false) →
    quoteAll l = some (l.map quoteStr) := by
  intro l
  induction l with
  | nil => intro _; rfl
  | cons a l ih =>
    intro h
    have ha := quote_of_noNul a (h a (List.mem_cons_self a l))
    have hl := ih (fun t ht => h t (List.mem_cons_of_mem a ht))
    simp [quoteAll, ha, hl]

theorem quoteAll_some : ∀ (l : List String) (q : List String),
    quoteAll l = some q → q = l.map quoteStr := by
  intro l
  induction l with
  | nil =>
    intro q h
    simpa [quoteAll] using h.symm
  | cons a l ih =>
    intro q h
    unfold quoteAll at h
    cases ha : quote a with
    | none => rw [ha] at h; exact absurd h (by simp)
    | some qa =>
      rw [ha] at h
      cases hl : quoteAll l with
      | none => rw [hl] at h; exact absurd h (by simp)
      | some ql =>
        rw [hl] at h
        have hqa := quote_some a qa ha
        have hql := ih ql hl
        simp at h
        rw [← h, hqa, hql]
        simp

/-! ## Helper lemmas about variable sets -/

/-- Unfolding of the splitter at a present separator index. -/
theorem getArgs_some_eq (args : List String) (i : Nat) :
    getArgs args (some i)
      = match quoteAll (args.drop i) with
        | none => none
        | some quoted => some (args.take i, joinSpace quoted) := rfl

theorem getVar_setVar : ∀ (g : Vars) (k : String) (v : VarValue),
    getVar (setVar g k v) k = some v := by
  intro g k v
  induction g with
  | nil => simp [setVar, getVar]
  | cons p rest ih =>
    by_cases hk : p.1 = k
    · simp [setVar, hk, getVar]
    · simp [setVar, hk, getVar, ih]

/-! ## Claim theorems -/

/-- C1: evaluation of the run error handler at a failing run.  The exit
code policy of the claim holds (the structured code is propagated exactly
when `--exit-code` was set and the error carries one, any other failure
exits 1, success exits 0), but the handler writes no diagnostic line at
all: the source formats the failure with `fmt.Errorf` and discards the
result (the printing `e.Logger.Errf` call is commented out), so the
claimed single diagnostic line is missing. -/
theorem run_exit_policy_eval :
    (runHandler false (some (.taskRun 2))).code = 1
    ∧ (runHandler true (some (.taskRun 2))).code = 2
    ∧ (runHandler true (some .other)).code = 1
    ∧ (runHandler false none).code = 0
    ∧ (runHandler false (some (.taskRun 2))).stderrLines = []
    ∧ (runHandler true (some (.taskRun 2))).stderrLines = [] := by
  exact ⟨rfl, rfl, rfl, rfl, rfl, rfl⟩

/-- The flag record of the argument vector
`--init --dir a --taskfile b`. -/
def c2Flags : Flags := { initFlag := true, dir := "a", entrypoint := "b" }

/-- C2 counterexample: on a vector that also sets `--init`, `Task`
scaffolds a new Taskfile (file I/O) and returns before the
`--dir`/`--taskfile` check is ever reached, so processing does not fail
with `InvalidFlagCombination` even though both flags are non-empty. -/
theorem dir_taskfile_claim_false :
    preDispatch id id c2Flags = .scaffold
    ∧ touchesFilesystem (preDispatch id id c2Flags) = true
    ∧ preDispatch id id c2Flags ≠ .fatal .invalidFlagCombination := by
  exact ⟨rfl, rfl, by decide⟩

/-- C2 (amended): on every argument vector with both `--dir` and
`--taskfile` non-empty on which none of `--version`, `--help`, `--init`
is set, processing fails with `InvalidFlagCombination` before any file
I/O occurs. -/
theorem dir_taskfile_invalid_combo (fpDir fpBase : String → String) (f : Flags)
    (hv : f.versionFlag = false) (hh : f.helpFlag = false) (hi : f.initFlag = false)
    (hd : f.dir ≠ "") (ht : f.entrypoint ≠ "") :
    preDispatch fpDir fpBase f = .fatal .invalidFlagCombination
    ∧ touchesFilesystem (preDispatch fpDir fpBase f) = false := by
  have hout : preDispatch fpDir fpBase f = .fatal .invalidFlagCombination := by
    simp [preDispatch, hv, hh, hi, hd, ht]
  refine ⟨hout, ?_⟩
  rw [hout]
  rfl

/-- The flag record of the argument vector `--dir a --taskfile b`. -/
def c2WitnessFlags : Flags := { dir := "a", entrypoint := "b" }

/-- Witness for the amended C2 at the vector `--dir a --taskfile b`. -/
theorem dir_taskfile_invalid_combo_witness :
    preDispatch id id c2WitnessFlags = .fatal .invalidFlagCombination
    ∧ touchesFilesystem (preDispatch id id c2WitnessFlags) = false :=
  dir_taskfile_invalid_combo id id c2WitnessFlags rfl rfl rfl (by decide) (by decide)

/-- C3: whenever the Argument Splitter produced task tokens `tv` and a
pass-through string `cli`, the global set built by the Call Builder maps
`CLI_ARGS` to the static value `cli` — regardless of the grammar chosen
and of any user-supplied `CLI_ARGS` assignment among the tokens — and
with no `--` separator the bound value is the empty string. -/
theorem cli_args_binding (v : ℚ) (args : List String) (dashPos : Option Nat)
    (tv : List String) (cli : String)
    (h : getArgs args dashPos = some (tv, cli)) :
    getVar (buildCallsAndGlobals v tv cli).2 "CLI_ARGS" = some (.static cli)
    ∧ (dashPos = none → cli = "") := by
  constructor
  · exact getVar_setVar _ _ _
  · intro hd
    subst hd
    unfold getArgs at h
    simp at h
    exact h.2.symm

/-- Witness for C3: the user-supplied `CLI_ARGS=user` token is
overwritten by the re-quoted pass-through string. -/
theorem cli_args_binding_witness :
    getVar (buildCallsAndGlobals 3 ["CLI_ARGS=user"] (quoteStr "x y")).2 "CLI_ARGS"
        = some (.static (quoteStr "x y"))
    ∧ ((some 1 : Option Nat) = none → quoteStr "x y" = "") :=
  cli_args_binding 3 ["CLI_ARGS=user", "x y"] (some 1) ["CLI_ARGS=user"]
    (quoteStr "x y") (by decide)

/-- C4: with a separator at index `i` the splitter returns the arguments
strictly before `i` unchanged and joins the independently quoted forms of
the arguments at or after `i` with single spaces; with no separator it
returns the full list and the empty string. -/
theorem splitter_spec (args : List String) (i : Nat)
    (h : ∀ t ∈ args.drop i, t.data.contains nulChar = false) :
    getArgs args (some i) = some (args.take i, joinSpace ((args.drop i).map quoteStr))
    ∧ getArgs args none = some (args, "") := by
  constructor
  · rw [getArgs_some_eq, quoteAll_of_noNul _ h]
  · rfl

/-- Witness for C4 at the vector `build -- a, b c`. -/
theorem splitter_spec_witness :
    getArgs ["build", "a", "b c"] (some 1)
        = some (["build", "a", "b c"].take 1,
            joinSpace ((["build", "a", "b c"].drop 1).map quoteStr))
    ∧ getArgs ["build", "a", "b c"] none = some (["build", "a", "b c"], "") :=
  splitter_spec ["build", "a", "b c"] 1 (by decide)

/-- C5: whenever the splitter produced a pass-through string for the
arguments at or after the separator, word-splitting that string with the
POSIX shell model yields exactly the original argument sequence after
the separator — the quote-then-shell-parse round trip. -/
theorem passthrough_roundtrip (args : List String) (pos : Nat)
    (tv : List String) (cli : String)
    (h : getArgs args (some pos) = some (tv, cli)) :
    shellFields cli = some (args.drop pos) := by
  rw [getArgs_some_eq] at h
  cases hq : quoteAll (args.drop pos) with
  | none => rw [hq] at h; simp at h
  | some quoted =>
    rw [hq] at h
    simp at h
    rw [← h.2, quoteAll_some _ _ hq]
    exact shellSplit_join_quoted _

/-- A one-character string holding a single quote, used to build witness
tokens. -/
def apos : String := ⟨['\'']⟩

/-- Witness for C5 on tokens containing a space, a single quote, double
quotes, and a dollar sign. -/
theorem passthrough_roundtrip_witness :
    shellFields (joinSpace (["a b", "it" ++ apos ++ "s", "\"q\"", "$HOME"].map quoteStr))
      = some ((["run", "a b", "it" ++ apos ++ "s", "\"q\"", "$HOME"] : List String).drop 1) :=
  passthrough_roundtrip ["run", "a b", "it" ++ apos ++ "s", "\"q\"", "$HOME"] 1
    (["run", "a b", "it" ++ apos ++ "s", "\"q\"", "$HOME"].take 1)
    (joinSpace (["a b", "it" ++ apos ++ "s", "\"q\"", "$HOME"].map quoteStr))
    (by decide)

/-- C6: the Call Builder interprets the task tokens under the v3 grammar
exactly when the declared schema version is at least 3.0 and under the
v2 grammar exactly when it is lower. -/
theorem grammar_dispatch (v : ℚ) (ts : List String) (cli : String) :
    (3 ≤ v → (buildCallsAndGlobals v ts cli).1 = (parseV3 ts).1)
    ∧ (v < 3 → (buildCallsAndGlobals v ts cli).1 = (parseV2 ts).1) := by
  constructor
  · intro h
    simp [buildCallsAndGlobals, ge_iff_le, h]
  · intro h
    have hn : ¬ (3 : ℚ) ≤ v := not_le.mpr h
    simp [buildCallsAndGlobals, ge_iff_le, hn]

/-- Witness for C6 at versions 3 and 5/2. -/
theorem grammar_dispatch_witness :
    (buildCallsAndGlobals 3 ["a"] "").1 = (parseV3 ["a"]).1
    ∧ (buildCallsAndGlobals (5/2) ["a"] "").1 = (parseV2 ["a"]).1 :=
  ⟨(grammar_dispatch 3 ["a"] "").1 (by norm_num),
   (grammar_dispatch (5/2) ["a"] "").2 (by norm_num)⟩

/-- The flag record of the argument vector
`--version --output-group-begin B`. -/
def c7Flags : Flags := { versionFlag := true, outputGroupBegin := "B" }

/-- C7 counterexample: on a vector that also sets `--version`, `Task`
prints the version and exits successfully, so a non-empty group template
without `--output=group` does not make processing fail with
`InvalidFlagCombination`. -/
theorem group_flags_claim_false :
    preDispatch id id c7Flags = .printVersion
    ∧ preDispatch id id c7Flags ≠ .fatal .invalidFlagCombination := by
  exact ⟨rfl, by decide⟩

/-- C7 (amended): on every argument vector with `--output-group-begin`
or `--output-group-end` non-empty while the output style is not
`group`, on which none of `--version`, `--help`, `--init` is set,
processing fails with `InvalidFlagCombination`; consequently an executor
is only ever built with non-empty group templates when the style equals
`group`. -/
theorem group_flags_invalid_combo (fpDir fpBase : String → String) (f : Flags)
    (hv : f.versionFlag = false) (hh : f.helpFlag = false) (hi : f.initFlag = false)
    (hne : f.outputGroupBegin ≠ "" ∨ f.outputGroupEnd ≠ "")
    (hst : f.outputName ≠ "group") :
    preDispatch fpDir fpBase f = .fatal .invalidFlagCombination := by
  by_cases hd : f.dir ≠ "" ∧ f.entrypoint ≠ ""
  · simp [preDispatch, hv, hh, hi, hd]
  · by_cases hb : f.outputGroupBegin ≠ ""
    · simp [preDispatch, hv, hh, hi, hd, hst, hb]
    · have he : f.outputGroupEnd ≠ "" := hne.resolve_left hb
      have hb' : f.outputGroupBegin = "" := by rwa [ne_eq, not_not] at hb
      simp [preDispatch, hv, hh, hi, hd, hst, hb', he]

/-- The flag record of the argument vector `--output-group-end E`. -/
def c7WitnessFlags : Flags := { outputGroupEnd := "E" }

/-- Witness for the amended C7 at the vector `--output-group-end E`. -/
theorem group_flags_invalid_combo_witness :
    preDispatch id id c7WitnessFlags = .fatal .invalidFlagCombination :=
  group_flags_invalid_combo id id c7WitnessFlags rfl rfl rfl
    (Or.inr (by decide)) (by decide)

/-- C8: the registry is the merge of the generic base library with the
domain-specific `taskFuncs`: a name defined in both resolves to the
domain-specific entry (the later-registered entry silently shadows the
base one), and a name defined only in the base falls through to it. -/
theorem registry_shadowing {β : Type} (base : String → Option β)
    (k k' : String) (f : TemplFunc) (b : β)
    (hf : lookupFunc taskFuncs k = some f) (_hb : base k = some b)
    (hk' : lookupFunc taskFuncs k' = none) :
    buildRegistry base k = some (Sum.inr f)
    ∧ buildRegistry base k' = (base k').map Sum.inl := by
  unfold buildRegistry
  rw [hf, hk']
  exact ⟨rfl, rfl⟩

/-- Witness for C8: `OS` is defined in both maps and resolves to the
domain-specific evaluator; `upper` is base-only and falls through. -/
theorem registry_shadowing_witness :
    buildRegistry (fun n => if n = "OS" then some (0 : Nat) else none) "OS"
        = some (Sum.inr TemplFunc.osF)
    ∧ buildRegistry (fun n => if n = "OS" then some (0 : Nat) else none) "upper"
        = ((fun n => if n = "OS" then some (0 : Nat) else none) "upper").map Sum.inl :=
  registry_shadowing (fun n => if n = "OS" then some (0 : Nat) else none)
    "OS" "upper" .osF 0 (by decide) (by decide) (by decide)

/-- C9: for a fixed build target the `OS` and `ARCH` evaluators return
the fixed strings `GOOS` and `GOARCH` (they depend on nothing else, so
every call yields the same value), and `exeExt` returns `.exe` exactly
on the windows target and the empty string on every other target. -/
theorem pure_target_funcs (t : GoTarget) :
    osFunc t = t.goos
    ∧ archFunc t = t.goarch
    ∧ (exeExt t = ".exe" ↔ t.goos = "windows")
    ∧ (exeExt t = "" ↔ ¬ t.goos = "windows") := by
  refine ⟨rfl, rfl, ?_, ?_⟩ <;>
    by_cases h : t.goos = "windows" <;> simp [exeExt, h]

/-- C10: the deprecated registry entries `FromSlash`, `ToSlash`, and
`ExeExt` are the very same entries as `fromSlash`, `toSlash`, and
`exeExt`: querying the registry under the deprecated and the current
name yields equal entries, and their evaluators return equal results on
every build target and input. -/
theorem deprecated_aliases {β : Type} (base : String → Option β)
    (t : GoTarget) (x : String) :
    buildRegistry base "FromSlash" = buildRegistry base "fromSlash"
    ∧ buildRegistry base "ToSlash" = buildRegistry base "toSlash"
    ∧ buildRegistry base "ExeExt" = buildRegistry base "exeExt"
    ∧ (lookupFunc taskFuncs "FromSlash").bind (fun g => denoteStr g t x)
        = (lookupFunc taskFuncs "fromSlash").bind (fun g => denoteStr g t x)
    ∧ (lookupFunc taskFuncs "ToSlash").bind (fun g => denoteStr g t x)
        = (lookupFunc taskFuncs "toSlash").bind (fun g => denoteStr g t x)
    ∧ (lookupFunc taskFuncs "ExeExt").bind (fun g => denoteStr g t x)
        = (lookupFunc taskFuncs "exeExt").bind (fun g => denoteStr g t x) := by
  exact ⟨rfl, rfl, rfl, rfl, rfl, rfl⟩

end TaskCLI
